import Mathlib

/-!
Shallow embedding of the Survivor game engine (`src/survivor_game.py`).

Numbers: Python floats are modelled by exact rationals `ℚ`.  Comparisons of a
Euclidean length (`math.hypot`, `math.sqrt`) against a nonnegative bound are
encoded by comparing the squared length against the squared bound, which is
equivalent for nonnegative bounds; the movement controller, whose state
genuinely contains irrational values (`normalize`, `acos`), is embedded over
`ℝ` in a separate section.  Randomness (`random.random`, `random.uniform`) is
injected as explicit parameters.  Python `dict`s are modelled by association
lists with unique keys; `tkinter` timer handles are modelled by recording, for
every armed entry, the millisecond delay it was armed with.
-/

/-- `ACCELERATION = 0.12` (module constant). -/
def ACCELERATION : ℚ := 12/100

/-- `FRICTION = 0.82` (module constant). -/
def FRICTION : ℚ := 82/100

/-- `SPEED_EPSILON = 0.01` (module constant). -/
def SPEED_EPSILON : ℚ := 1/100

/-- `CAMERA_RETURN_SPEED = 0.35` (module constant). -/
def CAMERA_RETURN_SPEED : ℚ := 35/100

/-- The `Vector2` dataclass, with rational coordinates. -/
structure Vector2 where
  x : ℚ
  y : ℚ
deriving DecidableEq

/-- Squared Euclidean length of a `Vector2`.  The Python `Vector2.length`
returns `math.hypot(x, y)`; every comparison of a length against a
nonnegative bound is embedded through this squared form. -/
def Vector2.normSq (v : Vector2) : ℚ := v.x * v.x + v.y * v.y

/-- Python's float modulo `a % n`, which equals `a - n * floor(a / n)` and for
`n > 0` returns a value in `[0, n)`. -/
def pymod (a n : ℚ) : ℚ := a - n * ⌊a / n⌋

/-- `_wrapped_delta(current, target)` (lines 1466-1468):
`(target - current + tile_count / 2) % tile_count - tile_count / 2`,
with the grid size passed explicitly. -/
def wrapped_delta (current target n : ℚ) : ℚ :=
  pymod (target - current + n / 2) n - n / 2

/-- The per-axis wrapped offset vector used by `_apply_weapon_damage`
(lines 1419-1422). -/
def wrapped_offset (n : ℚ) (origin target : Vector2) : Vector2 :=
  ⟨wrapped_delta origin.x target.x n, wrapped_delta origin.y target.y n⟩

/-- Squared form of `_distance_in_tiles` (lines 1859-1862), which returns
`math.hypot` of the two wrapped deltas. -/
def distance_sq_in_tiles (n : ℚ) (a b : Vector2) : ℚ :=
  wrapped_delta a.x b.x n * wrapped_delta a.x b.x n
    + wrapped_delta a.y b.y n * wrapped_delta a.y b.y n

/-- The position-integration step of `_update_position` (lines 1438-1442):
`(position + velocity) % tile_count` per axis.  (The subsequent
distance-travelled bookkeeping does not affect the position.) -/
def update_position (tile_count : ℚ) (position velocity : Vector2) : Vector2 :=
  ⟨pymod (position.x + velocity.x) tile_count,
   pymod (position.y + velocity.y) tile_count⟩

/-- The enemy position-integration step of `_update_enemies` (lines 2280-2283):
`(enemy.position + enemy.velocity) % tile_count` per axis. -/
def update_enemy_position (tile_count : ℚ) (position velocity : Vector2) : Vector2 :=
  ⟨pymod (position.x + velocity.x) tile_count,
   pymod (position.y + velocity.y) tile_count⟩

/-- The camera state touched by `_update_camera`. -/
structure CameraState where
  camera_manual_override : Bool
  camera_position : Vector2
deriving DecidableEq

/-- `_update_camera` (lines 1448-1464).  The two float comparisons
`velocity.length() <= SPEED_EPSILON` and `velocity.length() > SPEED_EPSILON`
are embedded by the equivalent squared comparisons. -/
def update_camera (tile_count : ℚ) (keys_pressed : Bool) (velocity position : Vector2)
    (s : CameraState) : CameraState :=
  if s.camera_manual_override = true ∧ keys_pressed = false
      ∧ velocity.normSq ≤ SPEED_EPSILON * SPEED_EPSILON then s
  else
    let override : Bool :=
      if SPEED_EPSILON * SPEED_EPSILON < velocity.normSq then false
      else s.camera_manual_override
    if override = true then
      { camera_manual_override := override,
        camera_position :=
          ⟨pymod s.camera_position.x tile_count, pymod s.camera_position.y tile_count⟩ }
    else
      { camera_manual_override := override,
        camera_position :=
          ⟨pymod (s.camera_position.x
              + wrapped_delta s.camera_position.x position.x tile_count
                * CAMERA_RETURN_SPEED) tile_count,
           pymod (s.camera_position.y
              + wrapped_delta s.camera_position.y position.y tile_count
                * CAMERA_RETURN_SPEED) tile_count⟩ }

/-- Iterated camera ticks with the player stationary at `position`, no held
keys, and zero player velocity (the follow-mode scenario of §4.3). -/
def camera_follow_orbit (tile_count : ℚ) (position : Vector2) (s0 : CameraState) :
    ℕ → CameraState
  | 0 => s0
  | n + 1 => update_camera tile_count false ⟨0, 0⟩ position
      (camera_follow_orbit tile_count position s0 n)

/-- The zero-input branch of `_apply_input` (lines 1367-1372): multiply both
velocity axes by `FRICTION`, then snap each axis whose magnitude is below
`SPEED_EPSILON` to exactly zero. -/
def friction_tick (v : Vector2) : Vector2 :=
  let v1 : Vector2 := ⟨v.x * FRICTION, v.y * FRICTION⟩
  let v2 : Vector2 := if |v1.x| < SPEED_EPSILON then ⟨0, v1.y⟩ else v1
  if |v2.y| < SPEED_EPSILON then ⟨v2.x, 0⟩ else v2


/-- The `EnemyType` dataclass (static enemy definition). -/
structure EnemyType where
  name : String
  strength : ℤ
  speed : ℚ
  initial_health : ℤ
  attack_speed : ℚ
deriving DecidableEq

/-- The `Weapon` dataclass.  The numeric entries of the `properties` dict that
the engine reads are carried as `Option ℚ` fields: `none` models a missing or
unparsable entry, for which the property accessors fall back to their fixed
defaults. -/
structure Weapon where
  name : String
  damage : ℚ
  range_tiles : ℚ
  hit_chance : ℚ
  cooldown_property : Option ℚ
  impact_width_property : Option ℚ
deriving DecidableEq

/-- `Weapon.cooldown` (lines 216-222): parsed `properties["cooldown"]` with
default `0.6`, clamped to at least `0.05`. -/
def Weapon.cooldown (w : Weapon) : ℚ :=
  max (5/100) (w.cooldown_property.getD (6/10))

/-- `Weapon.impact_width` (lines 224-230): parsed `properties["impact_width"]`
with default `0.6`, clamped to at least `0.1`. -/
def Weapon.impact_width (w : Weapon) : ℚ :=
  max (1/10) (w.impact_width_property.getD (6/10))

/-- The dynamic `Enemy` dataclass (canvas handles stripped). -/
structure Enemy where
  enemy_type : EnemyType
  position : Vector2
  health : ℚ
  last_attack_time : ℚ
  wander_direction : Vector2
  next_wander_change : ℚ
  velocity : Vector2
deriving DecidableEq

/-- The transient `WeaponAttack` dataclass (canvas handles stripped). -/
structure WeaponAttack where
  weapon : Weapon
  start_position : Vector2
  direction : Vector2
  end_position : Vector2
  created_at : ℚ
deriving DecidableEq

/-- The dynamic `WeaponPickup` dataclass (canvas handles stripped). -/
structure WeaponPickup where
  weapon : Weapon
  position : Vector2
deriving DecidableEq

/-- The `SpawnEntry` dataclass. -/
structure SpawnEntry where
  enemy : String
  interval_seconds : ℚ
deriving DecidableEq

/-- The `WeaponSpawnEntry` dataclass. -/
structure WeaponSpawnEntry where
  weapon : String
  delay_seconds : ℚ
deriving DecidableEq

/-- The `SpawnRule` dataclass. -/
structure SpawnRule where
  min_xp : ℤ
  max_xp : Option ℤ
  spawns : List SpawnEntry
  weapon_drops : List WeaponSpawnEntry
deriving DecidableEq

/-- `SpawnRule.matches` (lines 183-188). -/
def SpawnRule.matches (r : SpawnRule) (xp : ℤ) : Bool :=
  if xp < r.min_xp then false
  else
    match r.max_xp with
    | none => true
    | some mx => decide (xp ≤ mx)

/-- Lookup in an association list, modelling Python `dict` access
(`d.get(key)`).  Reachable dictionaries have unique keys. -/
def dict_get {α β : Type} [DecidableEq α] (key : α) : List (α × β) → Option β
  | [] => none
  | kv :: rest => if kv.1 = key then some kv.2 else dict_get key rest

/-- `d[key] = value` on an association list: replaces the first binding of
`key`, or appends one. -/
def dict_set {α β : Type} [DecidableEq α] (key : α) (value : β) :
    List (α × β) → List (α × β)
  | [] => [(key, value)]
  | kv :: rest =>
      if kv.1 = key then (key, value) :: rest else kv :: dict_set key value rest

/-- `d.pop(key, None)` on an association list: removes every binding of `key`
(at most one exists in any reachable dictionary). -/
def dict_remove {α β : Type} [DecidableEq α] (key : α) :
    List (α × β) → List (α × β)
  | [] => []
  | kv :: rest =>
      if kv.1 = key then dict_remove key rest else kv :: dict_remove key rest

/-- `list.remove(a)`: removes the first element equal to `a`. -/
def remove_first {α : Type} [DecidableEq α] (a : α) : List α → List α
  | [] => []
  | b :: rest => if b = a then rest else b :: remove_first a rest

/-- The index of the first empty inventory slot, mirroring the
`for index, existing in enumerate(...)` loop of `_add_weapon_to_inventory`. -/
def first_free_slot : List (Option Weapon) → Option ℕ
  | [] => none
  | none :: _ => some 0
  | some _ :: rest => (first_free_slot rest).map (fun i => i + 1)

/-- The global game state mutated by the engine (rendering fields stripped;
`tkinter` timer handles are modelled by recording, per armed entry, the
millisecond delay it was armed with). -/
structure GameState where
  game_running : Bool
  xp : ℤ
  position : Vector2
  facing_direction : Vector2
  spawn_rules : List SpawnRule
  current_spawn_rule : Option SpawnRule
  enemy_spawn_handles : List (SpawnEntry × ℤ)
  weapon_spawn_handles : List (WeaponSpawnEntry × ℤ)
  enemy_types : List (String × EnemyType)
  weapon_types : List (String × Weapon)
  enemies : List Enemy
  weapon_pickups : List WeaponPickup
  weapon_inventory : List (Option Weapon)
  selected_weapon_index : Option ℕ
  weapon_cooldowns : List (String × ℚ)
  active_attacks : List WeaponAttack
deriving DecidableEq

/-- The geometric hit test of `_apply_weapon_damage` (lines 1419-1432).  The
float comparison `math.sqrt(lateral_sq) > impact_width * 0.5` is embedded by
the equivalent squared comparison (the bound is nonnegative). -/
def hit_candidate (n : ℚ) (w : Weapon) (direction origin epos : Vector2) : Bool :=
  let offset := wrapped_offset n origin epos
  let distance_along := offset.x * direction.x + offset.y * direction.y
  if distance_along < 0 ∨ w.range_tiles < distance_along then false
  else
    let total_distance_sq := offset.x * offset.x + offset.y * offset.y
    let lateral_sq := total_distance_sq - distance_along * distance_along
    let lateral_sq2 := if lateral_sq < 0 then 0 else lateral_sq
    decide (lateral_sq2 ≤ (w.impact_width * (1/2)) * (w.impact_width * (1/2)))

/-- The per-enemy body of the `_apply_weapon_damage` loop (lines 1418-1436):
`none` means the enemy was removed from the active set on this tick.  The
uniform roll drawn by `random.random()` is injected as `roll`. -/
def resolve_weapon_hit (n : ℚ) (w : Weapon) (direction origin : Vector2)
    (roll : ℚ) (e : Enemy) : Option Enemy :=
  if hit_candidate n w direction origin e.position then
    if roll ≤ w.hit_chance then
      let health := max 0 (e.health - w.damage)
      if health ≤ 0 then none else some { e with health := health }
    else some e
  else some e

/-- The `_apply_weapon_damage` loop over the enemy list, with one injected
roll per enemy index. -/
def apply_weapon_damage_go (n : ℚ) (w : Weapon) (direction origin : Vector2)
    (rolls : ℕ → ℚ) : ℕ → List Enemy → List Enemy
  | _, [] => []
  | i, e :: rest =>
    match resolve_weapon_hit n w direction origin (rolls i) e with
    | none => apply_weapon_damage_go n w direction origin rolls (i + 1) rest
    | some e2 => e2 :: apply_weapon_damage_go n w direction origin rolls (i + 1) rest

/-- `_apply_weapon_damage` (lines 1415-1436).  The `direction.length() == 0`
early return is encoded via the squared norm. -/
def apply_weapon_damage (n : ℚ) (w : Weapon) (direction origin : Vector2)
    (rolls : ℕ → ℚ) (enemies : List Enemy) : List Enemy :=
  if direction.normSq = 0 then enemies
  else apply_weapon_damage_go n w direction origin rolls 0 enemies

/-- The direction resolution shared by `_use_selected_weapon` (lines
1382-1386) and `_spawn_weapon_attack` (lines 1396-1399): a zero facing vector
becomes `(0, -1)`, a nonzero one is normalized.  Normalization is irrational
over ℚ, so the embedding receives the facing vector already normalized
(theorems hypothesize `normSq = 1` or `= 0`), under which `normalize` is the
identity. -/
def resolve_attack_direction (facing : Vector2) : Vector2 :=
  if facing.normSq = 0 then ⟨0, -1⟩ else facing

/-- `_spawn_weapon_attack` (lines 1395-1413): append one `WeaponAttack` and
apply its damage immediately. -/
def spawn_weapon_attack (n now : ℚ) (rolls : ℕ → ℚ) (w : Weapon)
    (direction : Vector2) (s : GameState) : GameState :=
  let dir := resolve_attack_direction direction
  let origin := s.position
  let end_position : Vector2 :=
    ⟨origin.x + dir.x * w.range_tiles, origin.y + dir.y * w.range_tiles⟩
  let attack : WeaponAttack :=
    { weapon := w, start_position := origin, direction := dir,
      end_position := end_position, created_at := now }
  { s with active_attacks := s.active_attacks ++ [attack],
           enemies := apply_weapon_damage n w dir origin rolls s.enemies }

/-- `_use_selected_weapon` (lines 1374-1393), with `time.monotonic()` injected
as `now`. -/
def use_selected_weapon (n now : ℚ) (rolls : ℕ → ℚ) (s : GameState) : GameState :=
  match s.selected_weapon_index with
  | none => s
  | some i =>
    if s.weapon_inventory.length ≤ i then s
    else
      match s.weapon_inventory.getD i none with
      | none => s
      | some w =>
        let direction := resolve_attack_direction s.facing_direction
        let cooldown_key := w.name.toLower
        let last_used := (dict_get cooldown_key s.weapon_cooldowns).getD 0
        if now - last_used < w.cooldown then s
        else
          spawn_weapon_attack n now rolls w direction
            { s with weapon_cooldowns := dict_set cooldown_key now s.weapon_cooldowns }

/-- The active-rule search of `_update_spawn_schedules` (lines 1756-1760):
the first rule in order that matches the current xp. -/
def find_active_rule (rules : List SpawnRule) (xp : ℤ) : Option SpawnRule :=
  rules.find? (fun r => r.matches xp)

/-- The delay of `_schedule_spawn_entry` (line 1790):
`max(1, int(interval_seconds * 1000))` milliseconds.  (`int()` truncates
toward zero; under the `max 1` clamp this agrees with the floor.) -/
def spawn_delay_ms (entry : SpawnEntry) : ℤ :=
  max 1 ⌊entry.interval_seconds * 1000⌋

/-- The delay of `_schedule_weapon_entry` (line 1812):
`max(0, int(delay_seconds * 1000))` milliseconds. -/
def weapon_delay_ms (entry : WeaponSpawnEntry) : ℤ :=
  max 0 ⌊entry.delay_seconds * 1000⌋

/-- `_schedule_spawn_entry` (lines 1789-1792): arm the timer of one enemy
spawn entry. -/
def schedule_spawn_entry (entry : SpawnEntry) (s : GameState) : GameState :=
  { s with enemy_spawn_handles :=
      dict_set entry (spawn_delay_ms entry) s.enemy_spawn_handles }

/-- `_schedule_weapon_entry` (lines 1811-1814): arm the timer of one weapon
drop entry. -/
def schedule_weapon_entry (entry : WeaponSpawnEntry) (s : GameState) : GameState :=
  { s with weapon_spawn_handles :=
      dict_set entry (weapon_delay_ms entry) s.weapon_spawn_handles }

/-- `_update_spawn_schedules` (lines 1755-1771): select the active rule,
return unchanged when it did not change (unless forced), otherwise cancel all
timers, record the new rule and arm its entries. -/
def update_spawn_schedules (force : Bool) (s : GameState) : GameState :=
  let active_rule := find_active_rule s.spawn_rules s.xp
  if force = false ∧ active_rule = s.current_spawn_rule then s
  else
    let s1 : GameState :=
      { s with enemy_spawn_handles := [], weapon_spawn_handles := [],
               current_spawn_rule := active_rule }
    match active_rule with
    | none => s1
    | some rule =>
      let s2 := rule.spawns.foldl (fun acc entry => schedule_spawn_entry entry acc) s1
      rule.weapon_drops.foldl (fun acc entry => schedule_weapon_entry entry acc) s2

/-- `_spawn_enemy_from_entry` (lines 1794-1809), the firing of an enemy-spawn
timer: spawn one enemy and immediately re-arm the same entry.  The sampled
spawn position, wander direction and wander interval are injected. -/
def fire_spawn_entry (now : ℚ) (rnd_position rnd_wander : Vector2)
    (rnd_interval : ℚ) (entry : SpawnEntry) (s : GameState) : GameState :=
  if s.game_running = false then s
  else
    match dict_get entry.enemy s.enemy_types with
    | none => s
    | some enemy_type =>
      let enemy : Enemy :=
        { enemy_type := enemy_type, position := rnd_position,
          health := (enemy_type.initial_health : ℚ), last_attack_time := 0,
          wander_direction := rnd_wander, next_wander_change := now + rnd_interval,
          velocity := ⟨0, 0⟩ }
      schedule_spawn_entry entry { s with enemies := s.enemies ++ [enemy] }

/-- `_spawn_weapon_from_entry` (lines 1816-1829), the firing of a weapon-drop
timer: drop the handle, then possibly create one pickup; the timer is never
re-armed.  The sampled drop position is injected. -/
def fire_weapon_entry (rnd_position : Vector2) (entry : WeaponSpawnEntry)
    (s : GameState) : GameState :=
  let s1 : GameState :=
    { s with weapon_spawn_handles := dict_remove entry s.weapon_spawn_handles }
  if s1.game_running = false then s1
  else
    match dict_get entry.weapon s1.weapon_types with
    | none => s1
    | some w =>
      if s1.weapon_pickups.any (fun p => p.weapon = w) then s1
      else if s1.weapon_inventory.any (fun item => item = some w) then s1
      else
        { s1 with weapon_pickups :=
            s1.weapon_pickups ++ [{ weapon := w, position := rnd_position }] }

/-- `_add_weapon_to_inventory` (lines 1840-1850): returns whether the weapon
was placed, plus the updated state. -/
def add_weapon_to_inventory (w : Weapon) (s : GameState) : Bool × GameState :=
  if s.weapon_inventory.any (fun existing => existing = some w) then (false, s)
  else
    match first_free_slot s.weapon_inventory with
    | none => (false, s)
    | some index =>
      (true,
        { s with
            weapon_inventory := s.weapon_inventory.set index (some w),
            selected_weapon_index :=
              if s.selected_weapon_index = none then some index
              else s.selected_weapon_index })

/-- `_remove_weapon_pickup` (lines 1852-1857), canvas cleanup stripped. -/
def remove_weapon_pickup (pickup : WeaponPickup) (s : GameState) : GameState :=
  { s with weapon_pickups := remove_first pickup s.weapon_pickups }

/-- The per-pickup body of the `_update_weapon_pickups` loop (lines
2299-2303): within `pickup_radius = 0.6` (squared comparison), try to add the
weapon and consume the pickup only on success. -/
def pickup_step (n : ℚ) (pickup : WeaponPickup) (s : GameState) : GameState :=
  if distance_sq_in_tiles n pickup.position s.position ≤ (6/10) * (6/10) then
    match add_weapon_to_inventory pickup.weapon s with
    | (true, s1) => remove_weapon_pickup pickup s1
    | (false, s1) => s1
  else s

/-- `_update_weapon_pickups` (lines 2296-2303): iterate over a snapshot of the
pickup list. -/
def update_weapon_pickups (n : ℚ) (s : GameState) : GameState :=
  if s.weapon_pickups = [] then s
  else s.weapon_pickups.foldl (fun acc pickup => pickup_step n pickup acc) s


/-- The hit-candidate condition as §4.6 of the spec states it, with a real
square root: `along` within `[0, range]` and the lateral distance
`sqrt(max(0, |offset|^2 - along^2))` within half the impact width.  Compared
against the source-translated `hit_candidate`. -/
def spec_hit_candidate (n : ℚ) (w : Weapon) (d origin epos : Vector2) : Prop :=
  0 ≤ (wrapped_offset n origin epos).x * d.x + (wrapped_offset n origin epos).y * d.y
  ∧ (wrapped_offset n origin epos).x * d.x + (wrapped_offset n origin epos).y * d.y
      ≤ w.range_tiles
  ∧ Real.sqrt (max 0 (((wrapped_offset n origin epos).normSq : ℝ)
        - (((wrapped_offset n origin epos).x * d.x
            + (wrapped_offset n origin epos).y * d.y : ℚ) : ℝ) ^ 2))
      ≤ (w.impact_width : ℝ) / 2

/-- 2D vector over `ℝ`, for the movement controller whose intermediate values
(`normalize`, `acos`) are irrational. -/
structure Vector2R where
  x : ℝ
  y : ℝ

/-- Componentwise vector addition (`Vector2.__add__`). -/
def Vector2R.add (a b : Vector2R) : Vector2R := ⟨a.x + b.x, a.y + b.y⟩

/-- Scalar multiplication (`Vector2.__mul__`). -/
def Vector2R.scale (v : Vector2R) (c : ℝ) : Vector2R := ⟨v.x * c, v.y * c⟩

/-- `Vector2.length` (lines 362-363): `math.hypot(x, y)`. -/
noncomputable def Vector2R.length (v : Vector2R) : ℝ := Real.sqrt (v.x ^ 2 + v.y ^ 2)

open Classical in
/-- `Vector2.normalize` (lines 365-369). -/
noncomputable def Vector2R.normalize (v : Vector2R) : Vector2R :=
  if v.length = 0 then ⟨0, 0⟩ else ⟨v.x / v.length, v.y / v.length⟩

open Classical in
/-- `Vector2.clamp_magnitude` (lines 371-378). -/
noncomputable def Vector2R.clamp_magnitude (v : Vector2R) (max_length : ℝ) : Vector2R :=
  if v.length ≤ max_length then v
  else if v.length = 0 then ⟨0, 0⟩
  else ⟨v.x * (max_length / v.length), v.y * (max_length / v.length)⟩

/-- The held movement keys consumed by `_apply_input` (WASD and arrows
merged per direction). -/
structure KeyState where
  up : Bool
  down : Bool
  left : Bool
  right : Bool

open Classical in
/-- `_movement_speed_factor` (lines 1326-1335). -/
noncomputable def movement_speed_factor
    (facing_direction movement_direction : Vector2R) : ℝ :=
  if facing_direction.length = 0 then 1
  else
    let facing := facing_direction.normalize
    let dot_product := facing.x * movement_direction.x + facing.y * movement_direction.y
    let dot_clamped := max (-1) (min 1 dot_product)
    let angle := Real.arccos dot_clamped
    let factor := 1 - (1/2) * (angle / Real.pi)
    max (1/2) (min 1 factor)

open Classical in
/-- The facing resolution of `_apply_input` (lines 1340-1344): zero-length
facing becomes `(0, -1)`, otherwise the facing is normalized. -/
noncomputable def resolve_facing (facing_direction : Vector2R) : Vector2R :=
  if facing_direction.length = 0 then ⟨0, -1⟩ else facing_direction.normalize

/-- The held-direction accumulation of `_apply_input` (lines 1345-1354):
forward/backward along the resolved facing, strafing along its
perpendiculars. -/
def input_direction (facing : Vector2R) (keys : KeyState) : Vector2R :=
  let right : Vector2R := ⟨facing.y, -facing.x⟩
  let left : Vector2R := ⟨-facing.y, facing.x⟩
  let d0 : Vector2R := ⟨0, 0⟩
  let d1 := if keys.up then d0.add facing else d0
  let d2 := if keys.down then d1.add (facing.scale (-1)) else d1
  let d3 := if keys.left then d2.add left else d2
  if keys.right then d3.add right else d3

open Classical in
/-- The nonzero-input branch of `_apply_input` (lines 1358-1366): accelerate
along the normalized direction, clamped to the facing-penalized target
speed. -/
noncomputable def accelerate_velocity (facing_direction : Vector2R)
    (forward_speed : ℝ) (velocity direction : Vector2R) : Vector2R :=
  let normalized := direction.normalize
  if 0 < normalized.length then
    let speed_factor := movement_speed_factor facing_direction normalized
    let target_speed := forward_speed * speed_factor
    if target_speed ≤ 0 then ⟨0, 0⟩
    else (velocity.add (normalized.scale (ACCELERATION : ℝ))).clamp_magnitude target_speed
  else velocity

open Classical in
/-- The zero-input branch of `_apply_input` (lines 1367-1372) over `ℝ`. -/
noncomputable def friction_decay (velocity : Vector2R) : Vector2R :=
  let v1 : Vector2R := ⟨velocity.x * (FRICTION : ℝ), velocity.y * (FRICTION : ℝ)⟩
  let v2 : Vector2R := if |v1.x| < (SPEED_EPSILON : ℝ) then ⟨0, v1.y⟩ else v1
  if |v2.y| < (SPEED_EPSILON : ℝ) then ⟨v2.x, 0⟩ else v2

open Classical in
/-- `_apply_input` (lines 1337-1372): resolve the facing vector, build the
held direction, then either accelerate and clamp or decay with friction.
(The `_update_facing_direction_from_mouse` call and the camera-override flag
are external to the velocity update.) -/
noncomputable def apply_input (facing_direction : Vector2R) (keys : KeyState)
    (forward_speed : ℝ) (velocity : Vector2R) : Vector2R :=
  let facing := resolve_facing facing_direction
  let direction := input_direction facing keys
  if 0 < direction.length then
    accelerate_velocity facing_direction forward_speed velocity direction
  else friction_decay velocity

/-- The velocity orbit of repeated `_apply_input` ticks starting from zero
velocity, under arbitrary per-tick facing vectors and held keys. -/
noncomputable def velocity_orbit (facing : ℕ → Vector2R) (keys : ℕ → KeyState)
    (forward_speed : ℝ) : ℕ → Vector2R
  | 0 => ⟨0, 0⟩
  | k + 1 => apply_input (facing k) (keys k) forward_speed
      (velocity_orbit facing keys forward_speed k)

-- ### Theorems

theorem pymod_nonneg (n : ℚ) (hn : 0 < n) (a : ℚ) : 0 ≤ pymod a n := by
  have h : pymod a n = n * Int.fract (a / n) := by
    unfold pymod Int.fract
    field_simp
  rw [h]
  exact mul_nonneg hn.le (Int.fract_nonneg _)

theorem pymod_lt (n : ℚ) (hn : 0 < n) (a : ℚ) : pymod a n < n := by
  have h : pymod a n = n * Int.fract (a / n) := by
    unfold pymod Int.fract
    field_simp
  rw [h]
  calc n * Int.fract (a / n) < n * 1 :=
        (mul_lt_mul_left hn).mpr (Int.fract_lt_one _)
    _ = n := mul_one n

theorem pymod_add_int_mul (n : ℚ) (hn : n ≠ 0) (a : ℚ) (k : ℤ) :
    pymod (a + k * n) n = pymod a n := by
  unfold pymod
  have h : (a + k * n) / n = a / n + k := by
    field_simp
  rw [h, Int.floor_add_int]
  push_cast
  ring

theorem pymod_eq_self (n a : ℚ) (h0 : 0 ≤ a) (h1 : a < n) : pymod a n = a := by
  have hn : 0 < n := lt_of_le_of_lt h0 h1
  have hfloor : ⌊a / n⌋ = 0 := by
    rw [Int.floor_eq_zero_iff]
    constructor
    · exact div_nonneg h0 hn.le
    · rw [div_lt_one hn]
      exact h1
  unfold pymod
  rw [hfloor]
  push_cast
  ring

theorem pymod_sub_floor (n a : ℚ) : a = pymod a n + n * ⌊a / n⌋ := by
  unfold pymod
  ring

theorem pymod_zero_left (n : ℚ) : pymod 0 n = 0 := by
  unfold pymod
  norm_num

theorem pymod_neg_eq (n : ℚ) (hn : 0 < n) (a : ℚ) :
    pymod (-a) n = if pymod a n = 0 then 0 else n - pymod a n := by
  have hsplit := pymod_sub_floor n a
  have hrw : -a = -pymod a n + ((-⌊a / n⌋ : ℤ) : ℚ) * n := by
    push_cast
    nlinarith [hsplit]
  rw [hrw, pymod_add_int_mul n hn.ne' _ _]
  by_cases h0 : pymod a n = 0
  · simp [h0, pymod_zero_left]
  · have hpos : 0 < pymod a n := lt_of_le_of_ne (pymod_nonneg n hn a) (Ne.symm h0)
    have hlt : pymod a n < n := pymod_lt n hn a
    have : pymod (-pymod a n) n = n - pymod a n := by
      have hrw2 : -pymod a n = (n - pymod a n) + (-1 : ℤ) * n := by
        push_cast
        ring
      rw [hrw2, pymod_add_int_mul n hn.ne' _ _]
      exact pymod_eq_self n _ (by linarith) (by linarith)
    rw [this, if_neg h0]

theorem wrapped_delta_lower (n : ℚ) (hn : 0 < n) (a b : ℚ) :
    -(n / 2) ≤ wrapped_delta a b n := by
  unfold wrapped_delta
  have := pymod_nonneg n hn (b - a + n / 2)
  linarith

theorem wrapped_delta_upper (n : ℚ) (hn : 0 < n) (a b : ℚ) :
    wrapped_delta a b n < n / 2 := by
  unfold wrapped_delta
  have := pymod_lt n hn (b - a + n / 2)
  linarith

theorem wrapped_delta_swap (n : ℚ) (hn : 0 < n) (a b : ℚ) :
    wrapped_delta b a n =
      if wrapped_delta a b n = -(n / 2) then -(n / 2) else - wrapped_delta a b n := by
  have hu : a - b + n / 2 = -(b - a + n / 2) + (1 : ℤ) * n := by push_cast; ring
  have hswap : pymod (a - b + n / 2) n = pymod (-(b - a + n / 2)) n := by
    rw [hu, pymod_add_int_mul n hn.ne' _ 1]
  have hneg := pymod_neg_eq n hn (b - a + n / 2)
  have hcond : wrapped_delta a b n = -(n / 2) ↔ pymod (b - a + n / 2) n = 0 := by
    unfold wrapped_delta
    constructor
    · intro h; linarith
    · intro h; rw [h]; ring
  by_cases h0 : pymod (b - a + n / 2) n = 0
  · rw [if_pos (hcond.mpr h0)]
    show pymod (a - b + n / 2) n - n / 2 = -(n / 2)
    rw [hswap, hneg, if_pos h0]
    ring
  · rw [if_neg (fun h => h0 (hcond.mp h))]
    show pymod (a - b + n / 2) n - n / 2 = - wrapped_delta a b n
    rw [hswap, hneg, if_neg h0]
    unfold wrapped_delta
    ring

/-- C3 counterexample: with `a = 0`, `b = 1`, `size = 2` (the offset is exactly
half the ring), `wrapped_delta 0 1 2 = -1` and `wrapped_delta 1 0 2 = -1`, so
`wrapped_delta` is not antisymmetric at this input. -/
theorem wrapped_delta_not_antisymm : ¬ (wrapped_delta 0 1 2 = - wrapped_delta 1 0 2) := by
  norm_num [wrapped_delta, pymod]

/-- C3 (amended): for every positive `size`, `wrapped_delta a b size` lies in
the half-open interval `[-size/2, size/2)` (hence within the claimed closed
interval), and antisymmetry `wrapped_delta a b size = -wrapped_delta b a size`
holds exactly when `wrapped_delta a b size ≠ -size/2`, i.e. except when the
offset `b - a` is congruent to `size/2` modulo `size`, where both directions
return `-size/2`. -/
theorem wrapped_delta_bounded_antisymm (size : ℚ) (hsize : 0 < size) (a b : ℚ) :
    (-(size / 2) ≤ wrapped_delta a b size ∧ wrapped_delta a b size < size / 2)
    ∧ (wrapped_delta a b size = - wrapped_delta b a size
        ↔ wrapped_delta a b size ≠ -(size / 2)) := by
  refine ⟨⟨wrapped_delta_lower size hsize a b, wrapped_delta_upper size hsize a b⟩, ?_⟩
  have hswap := wrapped_delta_swap size hsize a b
  constructor
  · intro hanti heq
    rw [heq, if_pos rfl] at hswap
    rw [hswap] at hanti
    rw [heq] at hanti
    have : size = 0 := by linarith
    exact hsize.ne' this
  · intro hne
    rw [if_neg hne] at hswap
    rw [hswap]
    ring

theorem wrapped_delta_bounded_antisymm_witness :
    (0 : ℚ) < 200
    ∧ ((-(200 / 2 : ℚ) ≤ wrapped_delta 3 7 200 ∧ wrapped_delta 3 7 200 < 200 / 2)
        ∧ (wrapped_delta 3 7 200 = - wrapped_delta 7 3 200
            ↔ wrapped_delta 3 7 200 ≠ -(200 / 2))) :=
  ⟨by norm_num, wrapped_delta_bounded_antisymm 200 (by norm_num) 3 7⟩

/-- C2: after every position-integration step (player `_update_position` and
enemy integration in `_update_enemies` alike), both coordinates of the result
lie in `[0, tile_count)`, for every starting position in `[0, tile_count)` and
every velocity. -/
theorem position_integration_wrap_invariant (tile_count : ℚ) (hn : 0 < tile_count)
    (p v : Vector2)
    (hpx : 0 ≤ p.x ∧ p.x < tile_count) (hpy : 0 ≤ p.y ∧ p.y < tile_count) :
    (0 ≤ (update_position tile_count p v).x
      ∧ (update_position tile_count p v).x < tile_count
      ∧ 0 ≤ (update_position tile_count p v).y
      ∧ (update_position tile_count p v).y < tile_count)
    ∧ (0 ≤ (update_enemy_position tile_count p v).x
      ∧ (update_enemy_position tile_count p v).x < tile_count
      ∧ 0 ≤ (update_enemy_position tile_count p v).y
      ∧ (update_enemy_position tile_count p v).y < tile_count) :=
  ⟨⟨pymod_nonneg _ hn _, pymod_lt _ hn _, pymod_nonneg _ hn _, pymod_lt _ hn _⟩,
   ⟨pymod_nonneg _ hn _, pymod_lt _ hn _, pymod_nonneg _ hn _, pymod_lt _ hn _⟩⟩

theorem position_integration_wrap_invariant_witness :
    (0 : ℚ) < 200 ∧ (0 ≤ (1999 / 10 : ℚ) ∧ (1999 / 10 : ℚ) < 200)
    ∧ (0 ≤ (100 : ℚ) ∧ (100 : ℚ) < 200)
    ∧ (0 ≤ (update_position 200 ⟨1999 / 10, 100⟩ ⟨1 / 2, -300⟩).x
      ∧ (update_position 200 ⟨1999 / 10, 100⟩ ⟨1 / 2, -300⟩).x < 200
      ∧ 0 ≤ (update_position 200 ⟨1999 / 10, 100⟩ ⟨1 / 2, -300⟩).y
      ∧ (update_position 200 ⟨1999 / 10, 100⟩ ⟨1 / 2, -300⟩).y < 200) :=
  ⟨by norm_num, ⟨by norm_num, by norm_num⟩, ⟨by norm_num, by norm_num⟩,
   (position_integration_wrap_invariant 200 (by norm_num) ⟨1999 / 10, 100⟩ ⟨1 / 2, -300⟩
     ⟨by norm_num, by norm_num⟩ ⟨by norm_num, by norm_num⟩).1⟩

theorem wrapped_delta_of_rep (n : ℚ) (hn : 0 < n) (c p e : ℚ) (k : ℤ)
    (hk : p - c = e + k * n) (h1 : -(n / 2) ≤ e) (h2 : e < n / 2) :
    wrapped_delta c p n = e := by
  unfold wrapped_delta
  have hrw : p - c + n / 2 = (e + n / 2) + (k : ℚ) * n := by linarith
  rw [hrw, pymod_add_int_mul n hn.ne' _ _,
    pymod_eq_self n _ (by linarith) (by linarith)]
  ring

theorem wrapped_delta_decomp (n c p : ℚ) :
    ∃ k : ℤ, p - c = wrapped_delta c p n + k * n :=
  ⟨⌊(p - c + n / 2) / n⌋, by unfold wrapped_delta pymod; push_cast; ring⟩

theorem camera_step_offset (n : ℚ) (hn : 0 < n) (c p : ℚ) :
    wrapped_delta (pymod (c + wrapped_delta c p n * CAMERA_RETURN_SPEED) n) p n
      = (1 - CAMERA_RETURN_SPEED) * wrapped_delta c p n := by
  obtain ⟨k, hk⟩ := wrapped_delta_decomp n c p
  have hlow := wrapped_delta_lower n hn c p
  have hup := wrapped_delta_upper n hn c p
  set d := wrapped_delta c p n with hd
  set m := ⌊(c + d * CAMERA_RETURN_SPEED) / n⌋ with hm
  have hX : pymod (c + d * CAMERA_RETURN_SPEED) n
      = c + d * CAMERA_RETURN_SPEED - n * m := rfl
  rw [hX]
  apply wrapped_delta_of_rep n hn _ p _ (k + m)
  · push_cast
    rw [CAMERA_RETURN_SPEED] at *
    linarith
  · rw [CAMERA_RETURN_SPEED] at *
    nlinarith
  · rw [CAMERA_RETURN_SPEED] at *
    nlinarith

theorem update_camera_follow_eq (n : ℚ) (p : Vector2) (s : CameraState)
    (h : s.camera_manual_override = false) :
    update_camera n false ⟨0, 0⟩ p s =
      { camera_manual_override := false,
        camera_position :=
          ⟨pymod (s.camera_position.x
              + wrapped_delta s.camera_position.x p.x n * CAMERA_RETURN_SPEED) n,
           pymod (s.camera_position.y
              + wrapped_delta s.camera_position.y p.y n * CAMERA_RETURN_SPEED) n⟩ } := by
  unfold update_camera
  rw [h]
  norm_num [Vector2.normSq, SPEED_EPSILON]

/-- C8: in follow mode (`camera_manual_override = false`) with the player
stationary, each camera tick moves the camera by `CAMERA_RETURN_SPEED` times
the wrapped delta toward the player, so the remaining wrapped offset after `N`
ticks on each axis equals the initial offset times
`(1 - CAMERA_RETURN_SPEED) ^ N` (exactly, over ℚ): exponential convergence,
not an instantaneous snap. -/
theorem camera_follow_exponential (n : ℚ) (hn : 0 < n) (player : Vector2)
    (s0 : CameraState) (hov : s0.camera_manual_override = false) (N : ℕ) :
    (camera_follow_orbit n player s0 N).camera_manual_override = false
    ∧ wrapped_delta (camera_follow_orbit n player s0 N).camera_position.x player.x n
        = (1 - CAMERA_RETURN_SPEED) ^ N
          * wrapped_delta s0.camera_position.x player.x n
    ∧ wrapped_delta (camera_follow_orbit n player s0 N).camera_position.y player.y n
        = (1 - CAMERA_RETURN_SPEED) ^ N
          * wrapped_delta s0.camera_position.y player.y n := by
  induction N with
  | zero => simp [camera_follow_orbit, hov]
  | succ N ih =>
    obtain ⟨ihov, ihx, ihy⟩ := ih
    have hstep := update_camera_follow_eq n player (camera_follow_orbit n player s0 N) ihov
    have horbit : camera_follow_orbit n player s0 (N + 1)
        = update_camera n false ⟨0, 0⟩ player (camera_follow_orbit n player s0 N) := rfl
    rw [horbit, hstep]
    refine ⟨rfl, ?_, ?_⟩
    · show wrapped_delta (pymod _ n) player.x n = _
      rw [camera_step_offset n hn _ player.x, ihx, pow_succ]
      ring
    · show wrapped_delta (pymod _ n) player.y n = _
      rw [camera_step_offset n hn _ player.y, ihy, pow_succ]
      ring

theorem camera_follow_exponential_witness :
    (camera_follow_orbit 200 ⟨0, 0⟩ ⟨false, ⟨10, 10⟩⟩ 3).camera_manual_override = false
    ∧ wrapped_delta (camera_follow_orbit 200 ⟨0, 0⟩ ⟨false, ⟨10, 10⟩⟩ 3).camera_position.x
        (0 : ℚ) 200
        = (1 - CAMERA_RETURN_SPEED) ^ 3 * wrapped_delta 10 0 200
    ∧ wrapped_delta (camera_follow_orbit 200 ⟨0, 0⟩ ⟨false, ⟨10, 10⟩⟩ 3).camera_position.y
        (0 : ℚ) 200
        = (1 - CAMERA_RETURN_SPEED) ^ 3 * wrapped_delta 10 0 200 :=
  camera_follow_exponential 200 (by norm_num) ⟨0, 0⟩ ⟨false, ⟨10, 10⟩⟩ rfl 3

theorem friction_tick_eq (v : Vector2) :
    friction_tick v =
      ⟨if |v.x * FRICTION| < SPEED_EPSILON then 0 else v.x * FRICTION,
       if |v.y * FRICTION| < SPEED_EPSILON then 0 else v.y * FRICTION⟩ := by
  unfold friction_tick
  by_cases hx : |v.x * FRICTION| < SPEED_EPSILON <;>
    by_cases hy : |v.y * FRICTION| < SPEED_EPSILON <;>
      simp [hx, hy]

theorem friction_tick_abs_le (v : Vector2) :
    |(friction_tick v).x| ≤ FRICTION * |v.x|
    ∧ |(friction_tick v).y| ≤ FRICTION * |v.y| := by
  rw [friction_tick_eq]
  constructor
  · by_cases hx : |v.x * FRICTION| < SPEED_EPSILON
    · simp only [hx, if_pos]
      rw [FRICTION]
      positivity
    · simp only [hx, if_neg, if_false]
      rw [abs_mul, FRICTION, abs_of_nonneg (by norm_num : (0 : ℚ) ≤ 82/100)]
      linarith [abs_nonneg v.x]
  · by_cases hy : |v.y * FRICTION| < SPEED_EPSILON
    · simp only [hy, if_pos]
      rw [FRICTION]
      positivity
    · simp only [hy, if_neg, if_false]
      rw [abs_mul, FRICTION, abs_of_nonneg (by norm_num : (0 : ℚ) ≤ 82/100)]
      linarith [abs_nonneg v.y]

theorem friction_tick_zero : friction_tick ⟨0, 0⟩ = ⟨0, 0⟩ := by
  norm_num [friction_tick, FRICTION, SPEED_EPSILON]

theorem friction_iter_abs_le (v : Vector2) (n : ℕ) :
    |(friction_tick^[n] v).x| ≤ FRICTION ^ n * |v.x|
    ∧ |(friction_tick^[n] v).y| ≤ FRICTION ^ n * |v.y| := by
  induction n with
  | zero => simp
  | succ n ih =>
    rw [Function.iterate_succ_apply']
    have hstep := friction_tick_abs_le (friction_tick^[n] v)
    have hF : (0 : ℚ) ≤ FRICTION := by rw [FRICTION]; norm_num
    constructor
    · calc |(friction_tick (friction_tick^[n] v)).x|
          ≤ FRICTION * |(friction_tick^[n] v).x| := hstep.1
        _ ≤ FRICTION * (FRICTION ^ n * |v.x|) :=
            mul_le_mul_of_nonneg_left ih.1 hF
        _ = FRICTION ^ (n + 1) * |v.x| := by ring
    · calc |(friction_tick (friction_tick^[n] v)).y|
          ≤ FRICTION * |(friction_tick^[n] v).y| := hstep.2
        _ ≤ FRICTION * (FRICTION ^ n * |v.y|) :=
            mul_le_mul_of_nonneg_left ih.2 hF
        _ = FRICTION ^ (n + 1) * |v.y| := by ring

theorem friction_snap_to_zero (w : Vector2)
    (hx : |w.x| < SPEED_EPSILON) (hy : |w.y| < SPEED_EPSILON) :
    friction_tick w = ⟨0, 0⟩ := by
  have hF1 : FRICTION ≤ 1 := by rw [FRICTION]; norm_num
  have hx' : |w.x * FRICTION| < SPEED_EPSILON := by
    rw [abs_mul]
    calc |w.x| * |FRICTION| ≤ |w.x| * 1 := by
          apply mul_le_mul_of_nonneg_left _ (abs_nonneg w.x)
          rw [abs_of_nonneg (by rw [FRICTION]; norm_num : (0:ℚ) ≤ FRICTION)]
          exact hF1
      _ = |w.x| := mul_one _
      _ < SPEED_EPSILON := hx
  have hy' : |w.y * FRICTION| < SPEED_EPSILON := by
    rw [abs_mul]
    calc |w.y| * |FRICTION| ≤ |w.y| * 1 := by
          apply mul_le_mul_of_nonneg_left _ (abs_nonneg w.y)
          rw [abs_of_nonneg (by rw [FRICTION]; norm_num : (0:ℚ) ≤ FRICTION)]
          exact hF1
      _ = |w.y| := mul_one _
      _ < SPEED_EPSILON := hy
  rw [friction_tick_eq, if_pos hx', if_pos hy']

/-- C7: with zero directional input each tick multiplies each velocity axis by
`FRICTION` and snaps any axis whose absolute value falls below
`SPEED_EPSILON` to exactly zero; consequently for every starting velocity
bounded by `B` on each axis, every orbit of zero-input ticks is exactly
`(0, 0)` from some bounded tick count `NB` on. -/
theorem friction_decay_reaches_zero (B : ℚ) (hB : 0 ≤ B) :
    (∀ v : Vector2, friction_tick v =
      ⟨if |v.x * FRICTION| < SPEED_EPSILON then 0 else v.x * FRICTION,
       if |v.y * FRICTION| < SPEED_EPSILON then 0 else v.y * FRICTION⟩)
    ∧ ∃ NB : ℕ, ∀ (v : Vector2) (n : ℕ), |v.x| ≤ B → |v.y| ≤ B → NB ≤ n →
        friction_tick^[n] v = ⟨0, 0⟩ := by
  refine ⟨friction_tick_eq, ?_⟩
  have hF0 : (0 : ℚ) ≤ FRICTION := by rw [FRICTION]; norm_num
  obtain ⟨n0, hn0⟩ : ∃ n0 : ℕ, FRICTION ^ n0 < SPEED_EPSILON / (B + 1) := by
    apply exists_pow_lt_of_lt_one
    · have : (0 : ℚ) < B + 1 := by linarith
      rw [SPEED_EPSILON]
      positivity
    · rw [FRICTION]; norm_num
  refine ⟨n0 + 1, fun v n hvx hvy hn => ?_⟩
  have hsmall : ∀ w : Vector2, w = friction_tick^[n0] v →
      |w.x| < SPEED_EPSILON ∧ |w.y| < SPEED_EPSILON := by
    intro w hw
    have hiter := friction_iter_abs_le v n0
    have hpow : FRICTION ^ n0 * B < SPEED_EPSILON := by
      have hBB : B < B + 1 := by linarith
      have h1 : FRICTION ^ n0 * B ≤ SPEED_EPSILON / (B + 1) * B := by
        apply mul_le_mul_of_nonneg_right hn0.le hB
      have h2 : SPEED_EPSILON / (B + 1) * B < SPEED_EPSILON := by
        rw [div_mul_eq_mul_div, div_lt_iff (by linarith : (0:ℚ) < B + 1)]
        have heps : (0 : ℚ) < SPEED_EPSILON := by rw [SPEED_EPSILON]; norm_num
        nlinarith
      linarith
    have hpown : (0 : ℚ) ≤ FRICTION ^ n0 := pow_nonneg hF0 n0
    constructor
    · rw [hw]
      calc |(friction_tick^[n0] v).x| ≤ FRICTION ^ n0 * |v.x| := hiter.1
        _ ≤ FRICTION ^ n0 * B := mul_le_mul_of_nonneg_left hvx hpown
        _ < SPEED_EPSILON := hpow
    · rw [hw]
      calc |(friction_tick^[n0] v).y| ≤ FRICTION ^ n0 * |v.y| := hiter.2
        _ ≤ FRICTION ^ n0 * B := mul_le_mul_of_nonneg_left hvy hpown
        _ < SPEED_EPSILON := hpow
  obtain ⟨hsx, hsy⟩ := hsmall (friction_tick^[n0] v) rfl
  have hzero1 : friction_tick^[n0 + 1] v = ⟨0, 0⟩ := by
    rw [Function.iterate_succ_apply']
    exact friction_snap_to_zero _ hsx hsy
  obtain ⟨m, hm⟩ : ∃ m : ℕ, n = m + (n0 + 1) := ⟨n - (n0 + 1), by omega⟩
  rw [hm, Function.iterate_add_apply, hzero1, Function.iterate_fixed friction_tick_zero]

theorem friction_decay_reaches_zero_witness :
    (0 : ℚ) ≤ 5
    ∧ ((∀ v : Vector2, friction_tick v =
        ⟨if |v.x * FRICTION| < SPEED_EPSILON then 0 else v.x * FRICTION,
         if |v.y * FRICTION| < SPEED_EPSILON then 0 else v.y * FRICTION⟩)
      ∧ ∃ NB : ℕ, ∀ (v : Vector2) (n : ℕ), |v.x| ≤ 5 → |v.y| ≤ 5 → NB ≤ n →
          friction_tick^[n] v = ⟨0, 0⟩) :=
  ⟨by norm_num, friction_decay_reaches_zero 5 (by norm_num)⟩

theorem dict_get_set {α β : Type} [DecidableEq α] (key : α) (value : β)
    (l : List (α × β)) : dict_get key (dict_set key value l) = some value := by
  induction l with
  | nil => simp [dict_get, dict_set]
  | cons kv rest ih =>
    by_cases h : kv.1 = key
    · simp [dict_set, h, dict_get]
    · simp [dict_set, h, dict_get, ih]

theorem dict_get_remove {α β : Type} [DecidableEq α] (key : α)
    (l : List (α × β)) : dict_get key (dict_remove key l) = none := by
  induction l with
  | nil => rfl
  | cons kv rest ih =>
    by_cases h : kv.1 = key
    · simp [dict_remove, h, ih]
    · simp [dict_remove, h, dict_get, ih]

/-- C9: once an enemy-spawn entry timer fires (game running, enemy type
known), the firing handler spawns one enemy and immediately re-arms the same
entry with the same interval used at every arming (`spawn_delay_ms`); a
weapon-drop entry timer, once it fires, is popped from the armed set and is
never re-armed, in every branch of the handler. -/
theorem spawn_timer_rearm_policy :
    (∀ (entry : SpawnEntry) (s : GameState),
        dict_get entry (schedule_spawn_entry entry s).enemy_spawn_handles
          = some (spawn_delay_ms entry))
    ∧ (∀ (now : ℚ) (rnd_position rnd_wander : Vector2) (rnd_interval : ℚ)
        (entry : SpawnEntry) (s : GameState) (et : EnemyType),
        s.game_running = true →
        dict_get entry.enemy s.enemy_types = some et →
        dict_get entry
            (fire_spawn_entry now rnd_position rnd_wander rnd_interval entry
              s).enemy_spawn_handles
          = some (spawn_delay_ms entry)
        ∧ (fire_spawn_entry now rnd_position rnd_wander rnd_interval entry s).enemies
          = s.enemies ++
            [{ enemy_type := et, position := rnd_position,
               health := (et.initial_health : ℚ), last_attack_time := 0,
               wander_direction := rnd_wander,
               next_wander_change := now + rnd_interval, velocity := ⟨0, 0⟩ }])
    ∧ (∀ (rnd_position : Vector2) (entry : WeaponSpawnEntry) (s : GameState),
        dict_get entry
            (fire_weapon_entry rnd_position entry s).weapon_spawn_handles = none) := by
  refine ⟨?_, ?_, ?_⟩
  · intro entry s
    simp [schedule_spawn_entry, dict_get_set]
  · intro now rnd_position rnd_wander rnd_interval entry s et hrun htype
    unfold fire_spawn_entry
    rw [hrun, htype]
    simp [schedule_spawn_entry, dict_get_set]
  · intro rnd_position entry s
    simp only [fire_weapon_entry]
    split
    · simp [dict_get_remove]
    · split
      · simp [dict_get_remove]
      · split
        · simp [dict_get_remove]
        · split
          · simp [dict_get_remove]
          · simp [dict_get_remove]

theorem spawn_timer_rearm_policy_witness :
    ((⟨true, 0, ⟨0, 0⟩, ⟨0, -1⟩, [], none, [], [], [("zombie", ⟨"zombie", 1, 1, 10, 1⟩)],
        [], [], [], [], none, [], []⟩ : GameState).game_running = true)
    ∧ dict_get ("zombie" : String)
        (⟨true, 0, ⟨0, 0⟩, ⟨0, -1⟩, [], none, [], [], [("zombie", ⟨"zombie", 1, 1, 10, 1⟩)],
          [], [], [], [], none, [], []⟩ : GameState).enemy_types
        = some ⟨"zombie", 1, 1, 10, 1⟩
    ∧ dict_get (⟨"zombie", 30⟩ : SpawnEntry)
        (fire_spawn_entry 0 ⟨5, 5⟩ ⟨1, 0⟩ 2 ⟨"zombie", 30⟩
          ⟨true, 0, ⟨0, 0⟩, ⟨0, -1⟩, [], none, [], [], [("zombie", ⟨"zombie", 1, 1, 10, 1⟩)],
            [], [], [], [], none, [], []⟩).enemy_spawn_handles
        = some (spawn_delay_ms ⟨"zombie", 30⟩) := by
  refine ⟨rfl, by simp [dict_get], ?_⟩
  exact (spawn_timer_rearm_policy.2.1 0 ⟨5, 5⟩ ⟨1, 0⟩ 2 ⟨"zombie", 30⟩
    ⟨true, 0, ⟨0, 0⟩, ⟨0, -1⟩, [], none, [], [], [("zombie", ⟨"zombie", 1, 1, 10, 1⟩)],
      [], [], [], [], none, [], []⟩ ⟨"zombie", 1, 1, 10, 1⟩ rfl (by simp [dict_get])).1

theorem matches_iff_interval (r : SpawnRule) (xp : ℤ) :
    r.matches xp = true ↔ (r.min_xp ≤ xp ∧ ∀ mx ∈ r.max_xp, xp ≤ mx) := by
  unfold SpawnRule.matches
  by_cases h1 : xp < r.min_xp
  · simp only [h1, if_true, Bool.false_eq_true, false_iff, not_and]
    intro h2
    exact absurd h2 (not_le.mpr h1)
  · rw [if_neg h1]
    cases hmx : r.max_xp with
    | none => simp [not_lt.mp h1, hmx]
    | some mx => simp [not_lt.mp h1, hmx]

theorem find_active_rule_eq_some_iff (rules : List SpawnRule) (xp : ℤ)
    (r : SpawnRule) :
    find_active_rule rules xp = some r ↔
      ∃ pre post, rules = pre ++ r :: post ∧ r.matches xp = true
        ∧ ∀ r2 ∈ pre, r2.matches xp = false := by
  induction rules with
  | nil =>
    constructor
    · intro h
      simp [find_active_rule] at h
    · rintro ⟨pre, post, h, -, -⟩
      exact absurd h (by simp)
  | cons head tail ih =>
    by_cases hp : head.matches xp = true
    · rw [find_active_rule,
        @List.find?_cons_of_pos SpawnRule (fun r2 => r2.matches xp) head tail hp]
      constructor
      · intro h
        rw [Option.some.injEq] at h
        subst h
        exact ⟨[], tail, rfl, hp, by simp⟩
      · rintro ⟨pre, post, heq, hr, hpre⟩
        cases pre with
        | nil =>
          simp only [List.nil_append, List.cons.injEq] at heq
          rw [heq.1]
        | cons p pre2 =>
          simp only [List.cons_append, List.cons.injEq] at heq
          have hph := hpre p (List.mem_cons_self p pre2)
          rw [← heq.1] at hph
          rw [hph] at hp
          exact absurd hp (by simp)
    · rw [find_active_rule,
        @List.find?_cons_of_neg SpawnRule (fun r2 => r2.matches xp) head tail hp]
      have hiff : List.find? (fun r2 => r2.matches xp) tail = find_active_rule tail xp := rfl
      rw [hiff, ih]
      constructor
      · rintro ⟨pre, post, heq, hr, hpre⟩
        refine ⟨head :: pre, post, by rw [heq, List.cons_append], hr, ?_⟩
        intro r2 hm
        rcases List.mem_cons.mp hm with h | h
        · rw [h]
          exact Bool.eq_false_iff.mpr (fun hc => hp hc)
        · exact hpre r2 h
      · rintro ⟨pre, post, heq, hr, hpre⟩
        cases pre with
        | nil =>
          simp only [List.nil_append, List.cons.injEq] at heq
          rw [← heq.1] at hr
          exact absurd hr hp
        | cons p pre2 =>
          simp only [List.cons_append, List.cons.injEq] at heq
          refine ⟨pre2, post, heq.2, hr, ?_⟩
          intro r2 hm
          exact hpre r2 (List.mem_cons_of_mem p hm)

/-- C5: `SpawnRule.matches` holds exactly when xp lies in the rule's
`[min_xp, max_xp]` interval (`max_xp` absent meaning unbounded above); the
engine's rule search returns exactly the first matching rule of the list; and
when no rule matches, the schedule update leaves no active rule and zero
armed spawn or weapon-drop timers (given that a state with no active rule
holds no armed timers, which every reachable state satisfies). -/
theorem spawn_rule_selection (rules : List SpawnRule) (xp : ℤ) :
    (∀ r : SpawnRule, r.matches xp = true ↔
        (r.min_xp ≤ xp ∧ ∀ mx ∈ r.max_xp, xp ≤ mx))
    ∧ (∀ r : SpawnRule, find_active_rule rules xp = some r ↔
        ∃ pre post, rules = pre ++ r :: post ∧ r.matches xp = true
          ∧ ∀ r2 ∈ pre, r2.matches xp = false)
    ∧ (∀ (s : GameState) (force : Bool),
        s.spawn_rules = rules → s.xp = xp →
        (∀ r ∈ rules, r.matches xp = false) →
        (s.current_spawn_rule = none →
          s.enemy_spawn_handles = [] ∧ s.weapon_spawn_handles = []) →
        (update_spawn_schedules force s).current_spawn_rule = none
        ∧ (update_spawn_schedules force s).enemy_spawn_handles = []
        ∧ (update_spawn_schedules force s).weapon_spawn_handles = []) := by
  refine ⟨fun r => matches_iff_interval r xp, fun r => find_active_rule_eq_some_iff rules xp r, ?_⟩
  intro s force hrules hxp hnone hinv
  have hfind : find_active_rule s.spawn_rules s.xp = none := by
    rw [hrules, hxp]
    unfold find_active_rule
    rw [List.find?_eq_none]
    intro r hr
    rw [hnone r hr]
    simp
  simp only [update_spawn_schedules, hfind]
  by_cases hcond : (force = false ∧ (none : Option SpawnRule) = s.current_spawn_rule)
  · rw [if_pos hcond]
    exact ⟨hcond.2.symm, (hinv hcond.2.symm).1, (hinv hcond.2.symm).2⟩
  · rw [if_neg hcond]
    exact ⟨rfl, rfl, rfl⟩

theorem spawn_rule_selection_witness :
    (update_spawn_schedules false
        ⟨true, 1000, ⟨0, 0⟩, ⟨0, -1⟩, [⟨0, some 99, [], []⟩], none, [], [], [], [],
          [], [], [], none, [], []⟩).current_spawn_rule = none
    ∧ (update_spawn_schedules false
        ⟨true, 1000, ⟨0, 0⟩, ⟨0, -1⟩, [⟨0, some 99, [], []⟩], none, [], [], [], [],
          [], [], [], none, [], []⟩).enemy_spawn_handles = []
    ∧ (update_spawn_schedules false
        ⟨true, 1000, ⟨0, 0⟩, ⟨0, -1⟩, [⟨0, some 99, [], []⟩], none, [], [], [], [],
          [], [], [], none, [], []⟩).weapon_spawn_handles = [] :=
  (spawn_rule_selection [⟨0, some 99, [], []⟩] 1000).2.2
    ⟨true, 1000, ⟨0, 0⟩, ⟨0, -1⟩, [⟨0, some 99, [], []⟩], none, [], [], [], [],
      [], [], [], none, [], []⟩ false rfl rfl
    (by decide) (fun _ => ⟨rfl, rfl⟩)

/-- C10: when the player is within the pickup radius of a `WeaponPickup` but
the weapon cannot be added (a copy is already held, or no weapon slot is
free), the whole pickup step is a no-op: the pickup stays in the world and
inventory and selection are unchanged.  When a free slot exists and no copy is
held, the pickup is consumed: the weapon lands in the first free slot, the
pickup is removed, and that slot becomes selected exactly when nothing was
selected before. -/
theorem pickup_consumption_policy (n : ℚ) (pickup : WeaponPickup) (s : GameState)
    (hrange : distance_sq_in_tiles n pickup.position s.position ≤ (6/10) * (6/10)) :
    ((s.weapon_inventory.any (fun existing => existing = some pickup.weapon) = true
        ∨ first_free_slot s.weapon_inventory = none) →
      pickup_step n pickup s = s)
    ∧ (∀ index : ℕ,
        s.weapon_inventory.any (fun existing => existing = some pickup.weapon) = false →
        first_free_slot s.weapon_inventory = some index →
        pickup_step n pickup s =
          { s with
              weapon_inventory := s.weapon_inventory.set index (some pickup.weapon),
              selected_weapon_index :=
                if s.selected_weapon_index = none then some index
                else s.selected_weapon_index,
              weapon_pickups := remove_first pickup s.weapon_pickups }) := by
  constructor
  · intro hfail
    unfold pickup_step
    rw [if_pos hrange]
    have hadd : add_weapon_to_inventory pickup.weapon s = (false, s) := by
      unfold add_weapon_to_inventory
      rcases hfail with hdup | hfull
      · rw [if_pos hdup]
      · by_cases hdup : s.weapon_inventory.any
            (fun existing => existing = some pickup.weapon) = true
        · rw [if_pos hdup]
        · rw [if_neg hdup, hfull]
    rw [hadd]
  · intro index hdup hslot
    unfold pickup_step
    rw [if_pos hrange]
    have hadd : add_weapon_to_inventory pickup.weapon s =
        (true,
          { s with
              weapon_inventory := s.weapon_inventory.set index (some pickup.weapon),
              selected_weapon_index :=
                if s.selected_weapon_index = none then some index
                else s.selected_weapon_index }) := by
      unfold add_weapon_to_inventory
      rw [Bool.eq_false_iff] at hdup
      rw [if_neg hdup, hslot]
    rw [hadd]
    rfl

theorem pickup_consumption_policy_witness :
    pickup_step 200 ⟨⟨"schwert", 10, 2, 1, none, none⟩, ⟨0, 0⟩⟩
        ⟨true, 0, ⟨0, 0⟩, ⟨0, -1⟩, [], none, [], [], [], [], [],
          [⟨⟨"schwert", 10, 2, 1, none, none⟩, ⟨0, 0⟩⟩], [none], none, [], []⟩
      = { (⟨true, 0, ⟨0, 0⟩, ⟨0, -1⟩, [], none, [], [], [], [], [],
            [⟨⟨"schwert", 10, 2, 1, none, none⟩, ⟨0, 0⟩⟩], [none], none, [], []⟩ :
              GameState) with
          weapon_inventory := [none].set 0 (some ⟨"schwert", 10, 2, 1, none, none⟩),
          selected_weapon_index :=
            if (none : Option ℕ) = none then some 0 else (none : Option ℕ),
          weapon_pickups :=
            remove_first ⟨⟨"schwert", 10, 2, 1, none, none⟩, ⟨0, 0⟩⟩
              [⟨⟨"schwert", 10, 2, 1, none, none⟩, ⟨0, 0⟩⟩] } :=
  (pickup_consumption_policy 200 ⟨⟨"schwert", 10, 2, 1, none, none⟩, ⟨0, 0⟩⟩
      ⟨true, 0, ⟨0, 0⟩, ⟨0, -1⟩, [], none, [], [], [], [], [],
        [⟨⟨"schwert", 10, 2, 1, none, none⟩, ⟨0, 0⟩⟩], [none], none, [], []⟩
      (by norm_num [distance_sq_in_tiles, wrapped_delta, pymod])).2
    0 (by decide) rfl

theorem resolve_attack_direction_idem (f : Vector2) :
    resolve_attack_direction (resolve_attack_direction f) = resolve_attack_direction f := by
  unfold resolve_attack_direction
  by_cases h : f.normSq = 0
  · rw [if_pos h]
    norm_num [Vector2.normSq]
  · rw [if_neg h, if_neg h]

/-- C4: a use-attempt of the selected weapon at time `now` with
`now - last_used` strictly below the weapon's cooldown is a complete no-op
(the state, the recorded last-use time included, is returned unchanged); with
`now - last_used ≥ cooldown` it records `last_used = now` and appends exactly
one `WeaponAttack`, resolving its damage against the enemies immediately. -/
theorem weapon_cooldown_gating (n now : ℚ) (rolls : ℕ → ℚ) (s : GameState)
    (i : ℕ) (w : Weapon)
    (hsel : s.selected_weapon_index = some i)
    (hlen : i < s.weapon_inventory.length)
    (hw : s.weapon_inventory.getD i none = some w)
    (hface : s.facing_direction.normSq = 1 ∨ s.facing_direction = ⟨0, 0⟩) :
    (now - (dict_get w.name.toLower s.weapon_cooldowns).getD 0 < w.cooldown →
      use_selected_weapon n now rolls s = s)
    ∧ (w.cooldown ≤ now - (dict_get w.name.toLower s.weapon_cooldowns).getD 0 →
      (use_selected_weapon n now rolls s).weapon_cooldowns
          = dict_set w.name.toLower now s.weapon_cooldowns
      ∧ (use_selected_weapon n now rolls s).active_attacks
          = s.active_attacks ++
            [{ weapon := w, start_position := s.position,
               direction := resolve_attack_direction s.facing_direction,
               end_position :=
                 ⟨s.position.x
                    + (resolve_attack_direction s.facing_direction).x * w.range_tiles,
                  s.position.y
                    + (resolve_attack_direction s.facing_direction).y * w.range_tiles⟩,
               created_at := now }]
      ∧ (use_selected_weapon n now rolls s).enemies
          = apply_weapon_damage n w (resolve_attack_direction s.facing_direction)
              s.position rolls s.enemies) := by
  have hred : use_selected_weapon n now rolls s =
      (if now - (dict_get w.name.toLower s.weapon_cooldowns).getD 0 < w.cooldown then s
       else spawn_weapon_attack n now rolls w (resolve_attack_direction s.facing_direction)
         { s with weapon_cooldowns := dict_set w.name.toLower now s.weapon_cooldowns }) := by
    simp only [use_selected_weapon, hsel, hw]
    rw [if_neg (not_le.mpr hlen)]
  rw [hred]
  constructor
  · intro hc
    rw [if_pos hc]
  · intro hc
    rw [if_neg (not_lt.mpr hc)]
    simp [spawn_weapon_attack, resolve_attack_direction_idem]

theorem weapon_cooldown_gating_witness :
    use_selected_weapon 200 (3/10) (fun _ => 0)
        ⟨true, 0, ⟨0, 0⟩, ⟨0, -1⟩, [], none, [], [], [], [], [], [],
          [some ⟨"pistole", 10, 5, 1, none, none⟩], some 0, [], []⟩
      = ⟨true, 0, ⟨0, 0⟩, ⟨0, -1⟩, [], none, [], [], [], [], [], [],
          [some ⟨"pistole", 10, 5, 1, none, none⟩], some 0, [], []⟩
    ∧ (use_selected_weapon 200 (7/10) (fun _ => 0)
        ⟨true, 0, ⟨0, 0⟩, ⟨0, -1⟩, [], none, [], [], [], [], [], [],
          [some ⟨"pistole", 10, 5, 1, none, none⟩], some 0, [], []⟩).weapon_cooldowns
      = dict_set ("pistole".toLower) (7/10) [] := by
  constructor
  · exact (weapon_cooldown_gating 200 (3/10) (fun _ => 0)
      ⟨true, 0, ⟨0, 0⟩, ⟨0, -1⟩, [], none, [], [], [], [], [], [],
        [some ⟨"pistole", 10, 5, 1, none, none⟩], some 0, [], []⟩ 0
      ⟨"pistole", 10, 5, 1, none, none⟩ rfl (by norm_num) rfl
      (Or.inl (by norm_num [Vector2.normSq]))).1
      (by norm_num [dict_get, Weapon.cooldown])
  · exact ((weapon_cooldown_gating 200 (7/10) (fun _ => 0)
      ⟨true, 0, ⟨0, 0⟩, ⟨0, -1⟩, [], none, [], [], [], [], [], [],
        [some ⟨"pistole", 10, 5, 1, none, none⟩], some 0, [], []⟩ 0
      ⟨"pistole", 10, 5, 1, none, none⟩ rfl (by norm_num) rfl
      (Or.inl (by norm_num [Vector2.normSq]))).2
      (by norm_num [dict_get, Weapon.cooldown])).1

theorem impact_width_pos (w : Weapon) : 0 < w.impact_width :=
  lt_of_lt_of_le (by norm_num) (le_max_left _ _)

theorem hit_candidate_iff (n : ℚ) (w : Weapon) (d origin epos : Vector2) :
    hit_candidate n w d origin epos = true ↔
      (0 ≤ (wrapped_offset n origin epos).x * d.x
            + (wrapped_offset n origin epos).y * d.y
       ∧ (wrapped_offset n origin epos).x * d.x
            + (wrapped_offset n origin epos).y * d.y ≤ w.range_tiles
       ∧ max 0 ((wrapped_offset n origin epos).normSq
            - ((wrapped_offset n origin epos).x * d.x
                + (wrapped_offset n origin epos).y * d.y)
              * ((wrapped_offset n origin epos).x * d.x
                + (wrapped_offset n origin epos).y * d.y))
          ≤ (w.impact_width * (1/2)) * (w.impact_width * (1/2))) := by
  unfold hit_candidate
  set o := wrapped_offset n origin epos with ho
  set along := o.x * d.x + o.y * d.y with halong
  by_cases h1 : along < 0 ∨ w.range_tiles < along
  · rw [if_pos h1]
    simp only [Bool.false_eq_true, false_iff, not_and]
    intro ha hb
    rcases h1 with h | h
    · exact absurd ha (not_le.mpr h)
    · exact absurd hb (not_le.mpr h)
  · rw [if_neg h1]
    push_neg at h1
    simp only [decide_eq_true_eq]
    have hif : ∀ q : ℚ, (if q < 0 then 0 else q) = max 0 q := by
      intro q
      by_cases h : q < 0
      · rw [if_pos h, max_eq_left h.le]
      · rw [if_neg h, max_eq_right (not_lt.mp h)]
    rw [hif]
    simp only [Vector2.normSq]
    exact ⟨fun h => ⟨h1.1, h1.2, h⟩, fun h => h.2.2⟩

/-- C1: for a unit attack direction, the source hit test accepts an enemy
exactly when the spec's geometric condition holds — the projection `along`
lies in `[0, range]` and the lateral distance
`sqrt(max(0, |offset|² - along²))` is at most half the impact width — and a
candidate whose injected roll is at most `hit_chance` has its health reduced
by the weapon damage with a floor at 0 and is removed from the active set on
the same tick (`none`) exactly when that health reaches 0. -/
theorem weapon_hit_geometry_and_damage (n : ℚ) (w : Weapon) (d origin : Vector2)
    (hd : d.normSq = 1) :
    (∀ epos : Vector2,
        hit_candidate n w d origin epos = true ↔ spec_hit_candidate n w d origin epos)
    ∧ (∀ (roll : ℚ) (e : Enemy),
        hit_candidate n w d origin e.position = true → roll ≤ w.hit_chance →
        resolve_weapon_hit n w d origin roll e =
          if max 0 (e.health - w.damage) = 0 then none
          else some { e with health := max 0 (e.health - w.damage) }) := by
  constructor
  · intro epos
    rw [hit_candidate_iff]
    unfold spec_hit_candidate
    set o := wrapped_offset n origin epos with ho
    set along := o.x * d.x + o.y * d.y with halong
    have hc : (0 : ℝ) ≤ (w.impact_width : ℝ) / 2 := by
      have := impact_width_pos w
      have h2 : (0 : ℝ) < (w.impact_width : ℝ) := by exact_mod_cast this
      linarith
    have hsqrt : Real.sqrt (max 0 ((o.normSq : ℝ) - ((along : ℚ) : ℝ) ^ 2))
          ≤ (w.impact_width : ℝ) / 2
        ↔ max 0 ((o.normSq : ℝ) - ((along : ℚ) : ℝ) ^ 2)
          ≤ ((w.impact_width : ℝ) / 2) ^ 2 := by
      constructor
      · intro h
        have hL : (0 : ℝ) ≤ max 0 ((o.normSq : ℝ) - ((along : ℚ) : ℝ) ^ 2) :=
          le_max_left _ _
        calc max 0 ((o.normSq : ℝ) - ((along : ℚ) : ℝ) ^ 2)
            = Real.sqrt (max 0 ((o.normSq : ℝ) - ((along : ℚ) : ℝ) ^ 2)) ^ 2 :=
              (Real.sq_sqrt hL).symm
          _ ≤ ((w.impact_width : ℝ) / 2) ^ 2 :=
              pow_le_pow_left (Real.sqrt_nonneg _) h 2
      · intro h
        calc Real.sqrt (max 0 ((o.normSq : ℝ) - ((along : ℚ) : ℝ) ^ 2))
            ≤ Real.sqrt (((w.impact_width : ℝ) / 2) ^ 2) := Real.sqrt_le_sqrt h
          _ = (w.impact_width : ℝ) / 2 := Real.sqrt_sq hc
    have hcast : (max 0 (o.normSq - along * along) : ℚ)
          ≤ (w.impact_width * (1/2)) * (w.impact_width * (1/2))
        ↔ max 0 ((o.normSq : ℝ) - ((along : ℚ) : ℝ) ^ 2)
          ≤ ((w.impact_width : ℝ) / 2) ^ 2 := by
      rw [← @Rat.cast_le _ _ ℝ _]
      constructor
      · intro h
        calc max 0 ((o.normSq : ℝ) - ((along : ℚ) : ℝ) ^ 2)
            = ((max 0 (o.normSq - along * along) : ℚ) : ℝ) := by
              rw [Rat.cast_max]
              push_cast
              ring_nf
          _ ≤ (((w.impact_width * (1/2)) * (w.impact_width * (1/2)) : ℚ) : ℝ) := h
          _ = ((w.impact_width : ℝ) / 2) ^ 2 := by push_cast; ring
      · intro h
        calc ((max 0 (o.normSq - along * along) : ℚ) : ℝ)
            = max 0 ((o.normSq : ℝ) - ((along : ℚ) : ℝ) ^ 2) := by
              rw [Rat.cast_max]
              push_cast
              ring_nf
          _ ≤ ((w.impact_width : ℝ) / 2) ^ 2 := h
          _ = (((w.impact_width * (1/2)) * (w.impact_width * (1/2)) : ℚ) : ℝ) := by
              push_cast; ring
    rw [hsqrt, ← hcast]
  · intro roll e hcand hroll
    unfold resolve_weapon_hit
    rw [if_pos hcand, if_pos hroll]
    by_cases h0 : max 0 (e.health - w.damage) = 0
    · rw [if_pos h0]
      rw [if_pos (le_of_eq h0)]
    · rw [if_neg h0,
        if_neg (fun hle => h0 (le_antisymm hle (le_max_left _ _)))]

theorem weapon_hit_geometry_and_damage_witness :
    spec_hit_candidate 200 ⟨"kanone", 60, 5, 1, none, none⟩ ⟨1, 0⟩ ⟨0, 0⟩ ⟨3, 1/5⟩
    ∧ resolve_weapon_hit 200 ⟨"kanone", 60, 5, 1, none, none⟩ ⟨1, 0⟩ ⟨0, 0⟩ 0
        ⟨⟨"zombie", 1, 1, 10, 1⟩, ⟨3, 1/5⟩, 50, 0, ⟨1, 0⟩, 0, ⟨0, 0⟩⟩ = none := by
  have h := weapon_hit_geometry_and_damage 200 ⟨"kanone", 60, 5, 1, none, none⟩
    ⟨1, 0⟩ ⟨0, 0⟩ (by norm_num [Vector2.normSq])
  have hcand : hit_candidate 200 ⟨"kanone", 60, 5, 1, none, none⟩ ⟨1, 0⟩ ⟨0, 0⟩
      ⟨3, 1/5⟩ = true := by
    norm_num [hit_candidate, wrapped_offset, wrapped_delta, pymod,
      Weapon.impact_width, max_eq_right, decide_eq_true_eq]
  refine ⟨(h.1 ⟨3, 1/5⟩).mp hcand, ?_⟩
  have h2 := h.2 0 ⟨⟨"zombie", 1, 1, 10, 1⟩, ⟨3, 1/5⟩, 50, 0, ⟨1, 0⟩, 0, ⟨0, 0⟩⟩
    hcand (by norm_num)
  rw [h2]
  norm_num

theorem Vector2R.length_nonneg (v : Vector2R) : 0 ≤ v.length :=
  Real.sqrt_nonneg _

theorem Vector2R.length_zero_vec : (⟨0, 0⟩ : Vector2R).length = 0 := by
  unfold Vector2R.length
  norm_num

theorem Vector2R.length_scale (v : Vector2R) (c : ℝ) :
    (v.scale c).length = |c| * v.length := by
  unfold Vector2R.scale Vector2R.length
  rw [show (v.x * c) ^ 2 + (v.y * c) ^ 2 = c ^ 2 * (v.x ^ 2 + v.y ^ 2) by ring]
  rw [Real.sqrt_mul (sq_nonneg c), Real.sqrt_sq_eq_abs]

theorem Vector2R.clamp_magnitude_length_le (v : Vector2R) (m : ℝ) (hm : 0 ≤ m) :
    (v.clamp_magnitude m).length ≤ m := by
  unfold Vector2R.clamp_magnitude
  split_ifs with h1 h2
  · exact h1
  · rw [Vector2R.length_zero_vec]
    exact hm
  · have hL : 0 < v.length := lt_of_le_of_ne (Vector2R.length_nonneg v) (Ne.symm h2)
    have hscale : (⟨v.x * (m / v.length), v.y * (m / v.length)⟩ : Vector2R)
        = v.scale (m / v.length) := rfl
    rw [hscale, Vector2R.length_scale, abs_of_nonneg (div_nonneg hm hL.le)]
    exact le_of_eq (by field_simp)

theorem Vector2R.length_le_of_abs_le (a b : Vector2R)
    (hx : |a.x| ≤ |b.x|) (hy : |a.y| ≤ |b.y|) : a.length ≤ b.length := by
  unfold Vector2R.length
  apply Real.sqrt_le_sqrt
  have h1 : a.x ^ 2 ≤ b.x ^ 2 := by
    rw [← sq_abs a.x, ← sq_abs b.x]
    exact pow_le_pow_left (abs_nonneg _) hx 2
  have h2 : a.y ^ 2 ≤ b.y ^ 2 := by
    rw [← sq_abs a.y, ← sq_abs b.y]
    exact pow_le_pow_left (abs_nonneg _) hy 2
  linarith

theorem movement_speed_factor_bounds (f m : Vector2R) :
    1/2 ≤ movement_speed_factor f m ∧ movement_speed_factor f m ≤ 1 := by
  unfold movement_speed_factor
  split_ifs with h
  · norm_num
  · constructor
    · exact le_max_left _ _
    · exact max_le (by norm_num) (min_le_left _ _)

theorem accelerate_velocity_length_le (facing : Vector2R) (fs : ℝ)
    (v direction : Vector2R) (hfs : 0 ≤ fs) (hv : v.length ≤ fs) :
    (accelerate_velocity facing fs v direction).length ≤ fs := by
  simp only [accelerate_velocity]
  split_ifs with h1 h2
  · rw [Vector2R.length_zero_vec]
    exact hfs
  · have htarget : 0 ≤ fs * movement_speed_factor facing direction.normalize := by
      exact le_of_lt (not_le.mp h2)
    calc ((v.add ((direction.normalize).scale (ACCELERATION : ℝ))).clamp_magnitude
          (fs * movement_speed_factor facing direction.normalize)).length
        ≤ fs * movement_speed_factor facing direction.normalize :=
          Vector2R.clamp_magnitude_length_le _ _ htarget
      _ ≤ fs * 1 :=
          mul_le_mul_of_nonneg_left (movement_speed_factor_bounds facing _).2 hfs
      _ = fs := mul_one fs
  · exact hv

theorem abs_mul_friction_le (t : ℝ) : |t * (FRICTION : ℝ)| ≤ |t| := by
  rw [abs_mul]
  apply mul_le_of_le_one_right (abs_nonneg t)
  rw [abs_of_nonneg (by rw [FRICTION]; push_cast; norm_num : (0:ℝ) ≤ (FRICTION : ℝ))]
  rw [FRICTION]
  push_cast
  norm_num

theorem friction_decay_length_le (v : Vector2R) :
    (friction_decay v).length ≤ v.length := by
  simp only [friction_decay]
  by_cases h1 : |v.x * (FRICTION : ℝ)| < (SPEED_EPSILON : ℝ)
  · simp only [h1, if_true]
    by_cases h2 : |v.y * (FRICTION : ℝ)| < (SPEED_EPSILON : ℝ)
    · simp only [h2, if_true]
      apply Vector2R.length_le_of_abs_le <;> simp [abs_nonneg]
    · simp only [h2, if_false]
      apply Vector2R.length_le_of_abs_le
      · simp [abs_nonneg]
      · exact abs_mul_friction_le v.y
  · simp only [h1, if_false]
    by_cases h2 : |v.y * (FRICTION : ℝ)| < (SPEED_EPSILON : ℝ)
    · simp only [h2, if_true]
      apply Vector2R.length_le_of_abs_le
      · exact abs_mul_friction_le v.x
      · simp [abs_nonneg]
    · simp only [h2, if_false]
      apply Vector2R.length_le_of_abs_le
      · exact abs_mul_friction_le v.x
      · exact abs_mul_friction_le v.y

theorem apply_input_length_le (facing : Vector2R) (keys : KeyState) (fs : ℝ)
    (v : Vector2R) (hfs : 0 ≤ fs) (hv : v.length ≤ fs) :
    (apply_input facing keys fs v).length ≤ fs := by
  simp only [apply_input]
  split_ifs with h1
  · exact accelerate_velocity_length_le facing fs v _ hfs hv
  · exact le_trans (friction_decay_length_le v) hv

/-- C6: the facing penalty factor always lies in `[1/2, 1]`; `clamp_magnitude`
never returns a vector longer than a nonnegative bound; one `_apply_input`
tick preserves `|velocity| ≤ forward_speed` (immediately after acceleration
the clamp bounds the velocity by `forward_speed × factor ≤ forward_speed`,
and a friction step never increases the magnitude); hence every velocity
orbit from zero velocity satisfies `|velocity| ≤ forward_speed` forever. -/
theorem velocity_clamp_invariant (fs : ℝ) (hfs : 0 ≤ fs) :
    (∀ facing movement_direction : Vector2R,
        1/2 ≤ movement_speed_factor facing movement_direction
        ∧ movement_speed_factor facing movement_direction ≤ 1)
    ∧ (∀ (v : Vector2R) (m : ℝ), 0 ≤ m → (v.clamp_magnitude m).length ≤ m)
    ∧ (∀ (facing : Vector2R) (keys : KeyState) (v : Vector2R),
        v.length ≤ fs → (apply_input facing keys fs v).length ≤ fs)
    ∧ (∀ (facing : ℕ → Vector2R) (keys : ℕ → KeyState) (k : ℕ),
        (velocity_orbit facing keys fs k).length ≤ fs) := by
  refine ⟨movement_speed_factor_bounds,
    fun v m hm => Vector2R.clamp_magnitude_length_le v m hm,
    fun facing keys v hv => apply_input_length_le facing keys fs v hfs hv, ?_⟩
  intro facing keys k
  induction k with
  | zero =>
    show (⟨0, 0⟩ : Vector2R).length ≤ fs
    rw [Vector2R.length_zero_vec]
    exact hfs
  | succ k ih =>
    exact apply_input_length_le (facing k) (keys k) fs _ hfs ih

theorem velocity_clamp_invariant_witness :
    (0 : ℝ) ≤ 1
    ∧ (velocity_orbit (fun _ => ⟨0, -1⟩) (fun _ => ⟨true, false, false, false⟩) 1 5).length
        ≤ 1 :=
  ⟨zero_le_one,
   (velocity_clamp_invariant 1 zero_le_one).2.2.2
     (fun _ => ⟨0, -1⟩) (fun _ => ⟨true, false, false, false⟩) 5⟩
